import Mathlib

/-!
Shallow embedding of the grade-management backend
(`src/backend/server.py`, `src/backend/api_routes.py`,
`src/backend/api_routes_part2.py`).

Numeric grade values and coefficients are modelled as rationals; the
document store is modelled as in-memory lists; endpoint outcomes are
modelled with `Except ApiError`.
-/

namespace GradeMgmt

/-- Role enumeration, from `RoleEnum` in `server.py`. -/
inductive Role where
  | ADMIN
  | STUDENT
  | TEACHER
deriving DecidableEq, Repr

/-- A user document in `db.users` (fields relevant to the claims). -/
structure User where
  id : String
  role : Role
deriving DecidableEq, Repr

/-- A subject document in `db.subjects` (fields used by the average path). -/
structure Subject where
  id : String
  name : String
  coefficient : ℚ
deriving DecidableEq, Repr

/-- A grade document in `db.grades` (fields used by the claims). -/
structure Grade where
  id : String
  student_id : String
  subject_id : String
  value : ℚ
  comment : Option String
deriving DecidableEq, Repr

/-- Outcomes of an HTTP handler: pydantic 422 validation failure,
403 forbidden, 404 not found. -/
inductive ApiError where
  | validation
  | forbidden
  | notFound
deriving DecidableEq, Repr

/-- `db.subjects.find_one({"_id": k})`. -/
def findSubject (subjects : List Subject) (k : String) : Option Subject :=
  subjects.find? (fun s => s.id == k)

/-- `db.grades.find({"student_id": sid})` as a list, in store order. -/
def studentGrades (dbGrades : List Grade) (sid : String) : List Grade :=
  dbGrades.filter (fun g => g.student_id == sid)

/-- Round-half-to-even on a rational, the rounding mode of Python `round`. -/
def roundHalfEven (q : ℚ) : ℤ :=
  let f := ⌊q⌋
  let r := q - (f : ℚ)
  if r < 1/2 then f
  else if 1/2 < r then f + 1
  else if f % 2 = 0 then f else f + 1

/-- Python `round(x, 2)`. -/
def round2 (q : ℚ) : ℚ :=
  (roundHalfEven (q * 100) : ℚ) / 100

/-- `statistics.mean` (only ever applied to nonempty lists by the code). -/
def mean (l : List ℚ) : ℚ :=
  l.sum / (l.length : ℚ)

/-- The running per-subject group of `calculate_student_average`:
one value of the `subjects_data` dict. -/
structure SubjectData where
  subject_name : String
  coefficient : ℚ
  grades : List ℚ
deriving DecidableEq, Repr

/-- One loop iteration of the grouping loop in `calculate_student_average`
(`api_routes_part2.py` lines 298-310): on first sight of a subject id, look
the subject up and create an empty group when it exists; then, when a group
for the id is present, append the grade's value to it. -/
def addGradeToGroups (subjects : List Subject) (acc : List (String × SubjectData))
    (g : Grade) : List (String × SubjectData) :=
  let acc1 :=
    if acc.any (fun p => p.1 == g.subject_id) then acc
    else
      match findSubject subjects g.subject_id with
      | some s => acc ++ [(g.subject_id, ⟨s.name, s.coefficient, []⟩)]
      | none => acc
  if acc1.any (fun p => p.1 == g.subject_id) then
    acc1.map (fun p =>
      if p.1 == g.subject_id then (p.1, ⟨p.2.subject_name, p.2.coefficient, p.2.grades ++ [g.value]⟩)
      else p)
  else acc1

/-- The whole grouping loop: `subjects_data` as an insertion-ordered
association list, as a Python dict is. -/
def groupGrades (subjects : List Subject) (gs : List Grade) : List (String × SubjectData) :=
  gs.foldl (addGradeToGroups subjects) []

/-- One element of the `subject_averages` response list. -/
structure SubjectAverage where
  subject_id : String
  subject_name : String
  average : ℚ
  coefficient : ℚ
  grade_count : ℕ
deriving DecidableEq, Repr

/-- One iteration of the averaging loop (`api_routes_part2.py` lines
317-330): for a group with at least one grade, append its rounded mean to
`subject_averages` and accumulate the weighted sum and total coefficient. -/
def summarizeStep (acc : List SubjectAverage × ℚ × ℚ) (p : String × SubjectData) :
    List SubjectAverage × ℚ × ℚ :=
  if p.2.grades.isEmpty then acc
  else
    let subject_avg := mean p.2.grades
    (acc.1 ++ [⟨p.1, p.2.subject_name, round2 subject_avg, p.2.coefficient, p.2.grades.length⟩],
     acc.2.1 + subject_avg * p.2.coefficient,
     acc.2.2 + p.2.coefficient)

/-- The averaging loop: returns `(subject_averages, weighted_sum, total_coefficient)`. -/
def summarize (groups : List (String × SubjectData)) : List SubjectAverage × ℚ × ℚ :=
  groups.foldl summarizeStep ([], 0, 0)

/-- The JSON body returned by `calculate_student_average`
(`calculation_date` omitted: it is a wall-clock timestamp). -/
structure AverageReport where
  student_id : String
  general_average : ℚ
  subject_averages : List SubjectAverage
  total_coefficient : ℚ
  semester : Option String
deriving DecidableEq, Repr

/-- `calculate_student_average` (`api_routes_part2.py` lines 266-341), after
the permission check: fetch the student's grades, return the zero report when
there are none, otherwise group by subject, average per subject, and take the
coefficient-weighted general average guarded against a zero total coefficient. -/
def calculate_student_average (dbGrades : List Grade) (subjects : List Subject)
    (student_id : String) (semester : Option String) : AverageReport :=
  let grades := studentGrades dbGrades student_id
  if grades.isEmpty then
    ⟨student_id, 0, [], 0, semester⟩
  else
    let subjects_data := groupGrades subjects grades
    let s := summarize subjects_data
    let general_average := if s.2.2 > 0 then round2 (s.2.1 / s.2.2) else 0
    ⟨student_id, general_average, s.1, s.2.2, semester⟩

/-- The permission conditional shared by `calculate_student_average`
(lines 277-278), `get_student_grades` (lines 107-108) and
`generate_transcript_pdf` (lines 358-359): deny when the caller is a STUDENT
asking about another student's id (the final `role not in [TEACHER, ADMIN]`
conjunct is kept as written). -/
def deniedStudentAccess (caller : User) (student_id : String) : Prop :=
  caller.role = Role.STUDENT ∧ caller.id ≠ student_id ∧
    (caller.role ≠ Role.TEACHER ∧ caller.role ≠ Role.ADMIN)

instance (caller : User) (student_id : String) :
    Decidable (deniedStudentAccess caller student_id) := by
  unfold deniedStudentAccess; infer_instance

/-- The `/api/students/{student_id}/average` endpoint
(`api_routes_part2.py` lines 266-341) with its permission check. -/
def calculate_student_average_endpoint (dbGrades : List Grade) (subjects : List Subject)
    (caller : User) (student_id : String) (semester : Option String) :
    Except ApiError AverageReport :=
  if deniedStudentAccess caller student_id then .error .forbidden
  else .ok (calculate_student_average dbGrades subjects student_id semester)

/-- The `/api/grades/student/{student_id}` endpoint (`api_routes_part2.py`
lines 97-146): permission check, fetch the grades, 404 when the student does
not exist, otherwise return the student's grades (the response rows are
rendered from exactly these documents). -/
def get_student_grades_endpoint (dbGrades : List Grade) (dbUsers : List User)
    (caller : User) (student_id : String) : Except ApiError (List Grade) :=
  if deniedStudentAccess caller student_id then .error .forbidden
  else
    let grades := studentGrades dbGrades student_id
    if (dbUsers.find? (fun u => u.id == student_id)).isNone then .error .notFound
    else .ok grades

/-- The `GradeCreate` request body (`server.py` lines 154-160). -/
structure GradeCreate where
  student_id : String
  subject_id : String
  value : ℚ
  comment : Option String
deriving DecidableEq, Repr

/-- The pydantic constraint `value: float = Field(..., ge=0, le=20)` on
`GradeCreate`: requests violating it are rejected before the handler runs. -/
def gradeCreateValid (req : GradeCreate) : Prop :=
  0 ≤ req.value ∧ req.value ≤ 20

instance (req : GradeCreate) : Decidable (gradeCreateValid req) := by
  unfold gradeCreateValid; infer_instance

/-- The `GradeUpdate` request body (`server.py` lines 162-165):
`value: Optional[float] = Field(None, ge=0, le=20)`. -/
structure GradeUpdate where
  value : Option ℚ
  comment : Option String
deriving DecidableEq, Repr

/-- The pydantic constraint on `GradeUpdate.value` when present. -/
def gradeUpdateValid (upd : GradeUpdate) : Prop :=
  ∀ v, upd.value = some v → 0 ≤ v ∧ v ≤ 20

instance (upd : GradeUpdate) : Decidable (gradeUpdateValid upd) := by
  unfold gradeUpdateValid
  cases upd.value with
  | none => exact isTrue (by simp)
  | some v =>
    by_cases h : 0 ≤ v ∧ v ≤ 20
    · exact isTrue (by simpa using h)
    · exact isFalse (by simpa using h)

/-- `POST /api/grades` (`api_routes_part2.py` lines 38-95), with the pydantic
validation layer in front: reject out-of-range values, 404 when the student
(with role STUDENT) or subject is missing, otherwise insert the new grade
document and return the new grade store. `new_id` stands for the generated
uuid. -/
def create_grade (dbUsers : List User) (subjects : List Subject) (dbGrades : List Grade)
    (req : GradeCreate) (new_id : String) : Except ApiError (List Grade) :=
  if ¬ gradeCreateValid req then .error .validation
  else if (dbUsers.find? (fun u => u.id == req.student_id && u.role == Role.STUDENT)).isNone
    then .error .notFound
  else if (findSubject subjects req.subject_id).isNone then .error .notFound
  else .ok (dbGrades ++ [⟨new_id, req.student_id, req.subject_id, req.value, req.comment⟩])

/-- `PUT /api/grades/{grade_id}` (`api_routes_part2.py` lines 190-242), with
the pydantic validation layer in front: reject an out-of-range value, 404 when
the grade is missing, otherwise set `value` and `comment` when given and
return the new grade store. -/
def update_grade (dbGrades : List Grade) (grade_id : String) (upd : GradeUpdate) :
    Except ApiError (List Grade) :=
  if ¬ gradeUpdateValid upd then .error .validation
  else if (dbGrades.find? (fun g => g.id == grade_id)).isNone then .error .notFound
  else .ok (dbGrades.map (fun g =>
    if g.id == grade_id then
      { g with value := (upd.value.getD g.value),
               comment := (match upd.comment with | some c => some c | none => g.comment) }
    else g))

/-- `db.users.delete_one({"_id": uid})`: remove the first matching document. -/
def deleteOneUser : List User → String → List User
  | [], _ => []
  | u :: rest, uid => if u.id == uid then rest else u :: deleteOneUser rest uid

/-- `DELETE /api/admin/users/delete/{user_id}` (`api_routes.py` lines
223-243): delete the user, 404 when nothing was deleted (the grade store is
untouched in that case), otherwise cascade-delete the user's grades with
`db.grades.delete_many({"student_id": user_id})`. -/
def delete_user (dbUsers : List User) (dbGrades : List Grade) (user_id : String) :
    Except ApiError (List User × List Grade) :=
  let users' := deleteOneUser dbUsers user_id
  if users'.length = dbUsers.length then .error .notFound
  else .ok (users', dbGrades.filter (fun g => ¬ (g.student_id == user_id)))

/-- The grade set of spec §8 property 2: subject A (coefficient 2) with
grades 10 and 14, subject B (coefficient 1) with grade 16. -/
def exGrades : List Grade :=
  [⟨"g1", "stu1", "subjA", 10, none⟩,
   ⟨"g2", "stu1", "subjA", 14, none⟩,
   ⟨"g3", "stu1", "subjB", 16, none⟩]

/-- The subject store of spec §8 property 2. -/
def exSubjects : List Subject :=
  [⟨"subjA", "Subject A", 2⟩, ⟨"subjB", "Subject B", 1⟩]

/-- A small user store: one student, one teacher. -/
def exUsers : List User :=
  [⟨"stu1", Role.STUDENT⟩, ⟨"t1", Role.TEACHER⟩]

/-- A grade whose subject identifier resolves to no stored subject. -/
def exGradesGhost : List Grade :=
  [⟨"g9", "stu3", "ghost", 12, none⟩]

/-- A grade-creation request whose value violates the 0-20 bound. -/
def exBadCreate : GradeCreate :=
  ⟨"stu1", "subjA", 25, none⟩

/-- A grade-update request whose value violates the 0-20 bound. -/
def exBadUpdate : GradeUpdate :=
  ⟨some 25, none⟩

/-- A student caller distinct from the student whose data is requested. -/
def exCaller : User :=
  ⟨"u9", Role.STUDENT⟩

/-- The per-subject order the spec promises: subject identifiers in order of
the first grade that mentions them, keeping only subjects present in the
subject store. -/
def firstSeenSubjects (subjects : List Subject) (gs : List Grade) : List String :=
  gs.foldl (fun ks g =>
    if ks.any (fun k => k == g.subject_id) then ks
    else if (findSubject subjects g.subject_id).isSome then ks ++ [g.subject_id]
    else ks) []

/-! ### Characterization of one grouping-loop iteration -/

theorem addGradeToGroups_of_seen {acc : List (String × SubjectData)} {g : Grade}
    (subjects : List Subject)
    (ha : (acc.any fun p => p.1 == g.subject_id) = true) :
    addGradeToGroups subjects acc g =
      acc.map (fun p =>
        if p.1 == g.subject_id then
          (p.1, ⟨p.2.subject_name, p.2.coefficient, p.2.grades ++ [g.value]⟩)
        else p) := by
  unfold addGradeToGroups
  simp [ha]

theorem addGradeToGroups_of_new {acc : List (String × SubjectData)} {g : Grade}
    {subjects : List Subject} {s : Subject}
    (ha : (acc.any fun p => p.1 == g.subject_id) = false)
    (hs : findSubject subjects g.subject_id = some s) :
    addGradeToGroups subjects acc g =
      acc ++ [(g.subject_id, ⟨s.name, s.coefficient, [g.value]⟩)] := by
  have hall : ∀ p ∈ acc, (p.1 == g.subject_id) = false := by
    simpa [List.any_eq_true] using ha
  unfold addGradeToGroups
  simp only [ha, Bool.false_eq_true, if_false, hs]
  rw [if_pos (by simp)]
  rw [List.map_append]
  congr 1
  · have hid : ∀ p ∈ acc,
        (if p.1 == g.subject_id then
          (p.1, SubjectData.mk p.2.subject_name p.2.coefficient (p.2.grades ++ [g.value]))
        else p) = id p := fun p hp => by simp [hall p hp]
    rw [List.map_congr_left hid, List.map_id]
  · simp

theorem addGradeToGroups_of_dangling {acc : List (String × SubjectData)} {g : Grade}
    {subjects : List Subject}
    (ha : (acc.any fun p => p.1 == g.subject_id) = false)
    (hs : findSubject subjects g.subject_id = none) :
    addGradeToGroups subjects acc g = acc := by
  unfold addGradeToGroups
  simp [ha, hs]

/-! ### Loop invariant of the grouping loop -/

/-- Invariant of the grouping loop of `calculate_student_average` after the
grades in `processed` have been handled: every group belongs to an existing
subject and carries its name and coefficient, a group's grades are exactly the
values of the processed grades of that subject in order, every group is
nonempty, and every processed grade of an existing subject has a group. -/
structure GroupsInv (subjects : List Subject) (processed : List Grade)
    (acc : List (String × SubjectData)) : Prop where
  resolves : ∀ p ∈ acc, ∃ s, findSubject subjects p.1 = some s ∧
    p.2.subject_name = s.name ∧ p.2.coefficient = s.coefficient
  grades_eq : ∀ p ∈ acc, p.2.grades =
    (processed.filter (fun g => g.subject_id == p.1)).map Grade.value
  nonnil : ∀ p ∈ acc, p.2.grades ≠ []
  complete : ∀ g ∈ processed, (findSubject subjects g.subject_id).isSome →
    ∃ d, (g.subject_id, d) ∈ acc

theorem groupsInv_step {subjects : List Subject} {processed : List Grade}
    {acc : List (String × SubjectData)} (h : GroupsInv subjects processed acc)
    (g : Grade) :
    GroupsInv subjects (processed ++ [g]) (addGradeToGroups subjects acc g) := by
  by_cases ha : (acc.any fun p => p.1 == g.subject_id) = true
  · rw [addGradeToGroups_of_seen subjects ha]
    refine ⟨?_, ?_, ?_, ?_⟩
    · intro p hp
      obtain ⟨q, hq, hfq⟩ := List.mem_map.1 hp
      obtain ⟨s, hs, hn, hc⟩ := h.resolves q hq
      subst hfq
      by_cases hkey : (q.1 == g.subject_id) = true <;> simp [hkey] <;>
        exact ⟨s, hs, hn, hc⟩
    · intro p hp
      obtain ⟨q, hq, hfq⟩ := List.mem_map.1 hp
      subst hfq
      have hg := h.grades_eq q hq
      by_cases hkey : (q.1 == g.subject_id) = true
      · have hkey' : q.1 = g.subject_id := by simpa using hkey
        simp [hkey, hg, hkey', List.filter_append]
      · have hkeyne : q.1 ≠ g.subject_id := by simpa using hkey
        have hkey' : (g.subject_id == q.1) = false := by
          simp only [beq_eq_false_iff_ne]
          exact fun hh => hkeyne hh.symm
        simp [hkey, hg, List.filter_append, hkey']
    · intro p hp
      obtain ⟨q, hq, hfq⟩ := List.mem_map.1 hp
      subst hfq
      have hq' := h.nonnil q hq
      by_cases hkey : (q.1 == g.subject_id) = true <;> simp [hkey, hq']
    · intro g' hg' hsome
      rcases List.mem_append.1 hg' with hmem | hmem
      · obtain ⟨d, hd⟩ := h.complete g' hmem hsome
        by_cases hkey : (g'.subject_id == g.subject_id) = true
        · refine ⟨SubjectData.mk d.subject_name d.coefficient (d.grades ++ [g.value]), ?_⟩
          have himg := List.mem_map_of_mem (fun p =>
            if p.1 == g.subject_id then
              (p.1, SubjectData.mk p.2.subject_name p.2.coefficient (p.2.grades ++ [g.value]))
            else p) hd
          simpa [hkey] using himg
        · refine ⟨d, ?_⟩
          have himg := List.mem_map_of_mem (fun p =>
            if p.1 == g.subject_id then
              (p.1, SubjectData.mk p.2.subject_name p.2.coefficient (p.2.grades ++ [g.value]))
            else p) hd
          simpa [hkey] using himg
      · obtain ⟨p, hp, hpk⟩ := List.any_eq_true.1 ha
        have hg'' : g' = g := by simpa using hmem
        subst hg''
        have hpk' : p.1 = g'.subject_id := by simpa using hpk
        refine ⟨(SubjectData.mk p.2.subject_name p.2.coefficient (p.2.grades ++ [g'.value])), ?_⟩
        have himg : (if p.1 == g'.subject_id then
            (p.1, SubjectData.mk p.2.subject_name p.2.coefficient (p.2.grades ++ [g'.value]))
          else p) ∈ acc.map (fun q =>
            if q.1 == g'.subject_id then
              (q.1, SubjectData.mk q.2.subject_name q.2.coefficient (q.2.grades ++ [g'.value]))
            else q) := List.mem_map_of_mem _ hp
        rw [if_pos hpk, hpk'] at himg
        exact himg
  · have ha' : (acc.any fun p => p.1 == g.subject_id) = false := by
      cases hb : (acc.any fun p => p.1 == g.subject_id) with
      | true => exact absurd hb ha
      | false => rfl
    have hall : ∀ p ∈ acc, (p.1 == g.subject_id) = false := by
      intro p hp
      by_contra hc
      have hc' : (acc.any fun p => p.1 == g.subject_id) = true :=
        List.any_eq_true.2 ⟨p, hp, by simpa using hc⟩
      rw [ha'] at hc'
      exact Bool.noConfusion hc'
    cases hs : findSubject subjects g.subject_id with
    | none =>
      rw [addGradeToGroups_of_dangling ha' hs]
      refine ⟨h.resolves, ?_, h.nonnil, ?_⟩
      · intro p hp
        have hg := h.grades_eq p hp
        have hkey' : (g.subject_id == p.1) = false := by
          obtain ⟨s, hsfind, -⟩ := h.resolves p hp
          simp only [beq_eq_false_iff_ne]
          intro hh
          rw [hh] at hs
          rw [hs] at hsfind
          exact Option.noConfusion hsfind
        simp [hg, List.filter_append, hkey']
      · intro g' hg' hsome
        rcases List.mem_append.1 hg' with hmem | hmem
        · exact h.complete g' hmem hsome
        · have hg'' : g' = g := by simpa using hmem
          subst hg''
          rw [hs] at hsome
          simp at hsome
    | some s =>
      rw [addGradeToGroups_of_new ha' hs]
      refine ⟨?_, ?_, ?_, ?_⟩
      · intro p hp
        rcases List.mem_append.1 hp with hmem | hmem
        · exact h.resolves p hmem
        · have hp' : p = (g.subject_id, SubjectData.mk s.name s.coefficient [g.value]) := by
            simpa using hmem
          subst hp'
          exact ⟨s, hs, rfl, rfl⟩
      · intro p hp
        rcases List.mem_append.1 hp with hmem | hmem
        · have hg := h.grades_eq p hmem
          have hkey' : (g.subject_id == p.1) = false := by
            have := hall p hmem
            simp only [beq_eq_false_iff_ne] at this ⊢
            exact fun hh => this hh.symm
          simp [hg, List.filter_append, hkey']
        · have hp' : p = (g.subject_id, SubjectData.mk s.name s.coefficient [g.value]) := by
            simpa using hmem
          subst hp'
          have hnil : processed.filter (fun g' => g'.subject_id == g.subject_id) = [] := by
            rw [List.filter_eq_nil_iff]
            intro g' hg' hbeq
            have hsid : g'.subject_id = g.subject_id := by simpa using hbeq
            have hsome : (findSubject subjects g'.subject_id).isSome := by
              rw [hsid, hs]; rfl
            obtain ⟨d, hd⟩ := h.complete g' hg' hsome
            have : (acc.any fun p => p.1 == g.subject_id) = true :=
              List.any_eq_true.2 ⟨(g'.subject_id, d), hd, by simp [hsid]⟩
            rw [ha'] at this
            exact Bool.noConfusion this
          simp [List.filter_append, hnil]
      · intro p hp
        rcases List.mem_append.1 hp with hmem | hmem
        · exact h.nonnil p hmem
        · have hp' : p = (g.subject_id, SubjectData.mk s.name s.coefficient [g.value]) := by
            simpa using hmem
          subst hp'
          simp
      · intro g' hg' hsome
        rcases List.mem_append.1 hg' with hmem | hmem
        · obtain ⟨d, hd⟩ := h.complete g' hmem hsome
          exact ⟨d, List.mem_append_left _ hd⟩
        · have hg'' : g' = g := by simpa using hmem
          subst hg''
          exact ⟨SubjectData.mk s.name s.coefficient [g'.value], List.mem_append_right _ (by simp)⟩

theorem groupsInv_foldl (subjects : List Subject) :
    ∀ (gs : List Grade) (processed : List Grade) (acc : List (String × SubjectData)),
    GroupsInv subjects processed acc →
    GroupsInv subjects (processed ++ gs) (gs.foldl (addGradeToGroups subjects) acc) := by
  intro gs
  induction gs with
  | nil => intro processed acc h; simpa using h
  | cons g gs ih =>
    intro processed acc h
    have h2 := ih (processed ++ [g]) _ (groupsInv_step h g)
    simpa using h2

/-- The grouping loop establishes its invariant over the whole grade list. -/
theorem groupGrades_inv (subjects : List Subject) (gs : List Grade) :
    GroupsInv subjects gs (groupGrades subjects gs) := by
  have h0 : GroupsInv subjects [] [] :=
    ⟨by simp, by simp, by simp, by simp⟩
  simpa [groupGrades] using groupsInv_foldl subjects gs [] [] h0

theorem addGradeToGroups_keys (subjects : List Subject)
    (acc : List (String × SubjectData)) (g : Grade) :
    (addGradeToGroups subjects acc g).map Prod.fst =
      (if (acc.map Prod.fst).any (fun k => k == g.subject_id) then acc.map Prod.fst
       else if (findSubject subjects g.subject_id).isSome then
         acc.map Prod.fst ++ [g.subject_id]
       else acc.map Prod.fst) := by
  have hany : ((acc.map Prod.fst).any fun k => k == g.subject_id) =
      (acc.any fun p => p.1 == g.subject_id) := by
    induction acc with
    | nil => rfl
    | cons a l ih => simp [ih]
  by_cases ha : (acc.any fun p => p.1 == g.subject_id) = true
  · rw [addGradeToGroups_of_seen subjects ha, hany, ha, if_pos rfl, List.map_map]
    apply List.map_congr_left
    intro p _
    by_cases hkey : p.1 = g.subject_id <;> simp [hkey]
  · have ha' : (acc.any fun p => p.1 == g.subject_id) = false := by
      cases hb : (acc.any fun p => p.1 == g.subject_id) with
      | true => exact absurd hb ha
      | false => rfl
    rw [hany, ha']
    cases hs : findSubject subjects g.subject_id with
    | none => rw [addGradeToGroups_of_dangling ha' hs]; simp
    | some s => rw [addGradeToGroups_of_new ha' hs]; simp

theorem groupGrades_keys_foldl (subjects : List Subject) :
    ∀ (gs : List Grade) (acc : List (String × SubjectData)),
    (gs.foldl (addGradeToGroups subjects) acc).map Prod.fst =
      gs.foldl (fun ks g =>
        if ks.any (fun k => k == g.subject_id) then ks
        else if (findSubject subjects g.subject_id).isSome then ks ++ [g.subject_id]
        else ks) (acc.map Prod.fst) := by
  intro gs
  induction gs with
  | nil => intro acc; rfl
  | cons g gs ih =>
    intro acc
    rw [List.foldl_cons, List.foldl_cons, ih, addGradeToGroups_keys]

/-- The group keys are the first-seen order of the existing subjects. -/
theorem groupGrades_keys (subjects : List Subject) (gs : List Grade) :
    (groupGrades subjects gs).map Prod.fst = firstSeenSubjects subjects gs := by
  simpa [groupGrades, firstSeenSubjects] using groupGrades_keys_foldl subjects gs []

/-! ### Grades of missing subjects are no-ops for the grouping loop -/

theorem addGradeToGroups_liveKeys {subjects : List Subject}
    {acc : List (String × SubjectData)} (g : Grade)
    (h : ∀ p ∈ acc, (findSubject subjects p.1).isSome) :
    ∀ p ∈ addGradeToGroups subjects acc g, (findSubject subjects p.1).isSome := by
  by_cases ha : (acc.any fun p => p.1 == g.subject_id) = true
  · rw [addGradeToGroups_of_seen subjects ha]
    intro p hp
    obtain ⟨q, hq, hfq⟩ := List.mem_map.1 hp
    subst hfq
    have := h q hq
    by_cases hkey : (q.1 == g.subject_id) = true <;> simpa [hkey]
  · have ha' : (acc.any fun p => p.1 == g.subject_id) = false := by
      cases hb : (acc.any fun p => p.1 == g.subject_id) with
      | true => exact absurd hb ha
      | false => rfl
    cases hs : findSubject subjects g.subject_id with
    | none =>
      rw [addGradeToGroups_of_dangling ha' hs]
      exact h
    | some s =>
      rw [addGradeToGroups_of_new ha' hs]
      intro p hp
      rcases List.mem_append.1 hp with hmem | hmem
      · exact h p hmem
      · have hp' : p = (g.subject_id, SubjectData.mk s.name s.coefficient [g.value]) := by
          simpa using hmem
        subst hp'
        simp [hs]

theorem addGradeToGroups_dangling_noop {subjects : List Subject}
    {acc : List (String × SubjectData)} {g : Grade}
    (h : ∀ p ∈ acc, (findSubject subjects p.1).isSome)
    (hs : findSubject subjects g.subject_id = none) :
    addGradeToGroups subjects acc g = acc := by
  have ha : (acc.any fun p => p.1 == g.subject_id) = false := by
    cases hb : (acc.any fun p => p.1 == g.subject_id) with
    | true =>
      obtain ⟨p, hp, hpk⟩ := List.any_eq_true.1 hb
      have hpk' : p.1 = g.subject_id := by simpa using hpk
      have := h p hp
      rw [hpk', hs] at this
      exact Bool.noConfusion this
    | false => rfl
  exact addGradeToGroups_of_dangling ha hs

theorem groupGrades_filter_live_foldl (subjects : List Subject) :
    ∀ (gs : List Grade) (acc : List (String × SubjectData)),
    (∀ p ∈ acc, (findSubject subjects p.1).isSome) →
    (gs.filter (fun g => (findSubject subjects g.subject_id).isSome)).foldl
        (addGradeToGroups subjects) acc =
      gs.foldl (addGradeToGroups subjects) acc := by
  intro gs
  induction gs with
  | nil => intro acc _; rfl
  | cons g gs ih =>
    intro acc hacc
    cases hs : findSubject subjects g.subject_id with
    | none =>
      rw [List.filter_cons_of_neg (by simp [hs]), List.foldl_cons,
        addGradeToGroups_dangling_noop hacc hs]
      exact ih acc hacc
    | some s =>
      rw [List.filter_cons_of_pos (by simp [hs]), List.foldl_cons, List.foldl_cons]
      exact ih _ (addGradeToGroups_liveKeys g hacc)

/-- Dropping the grades of missing subjects does not change the groups. -/
theorem groupGrades_filter_live (subjects : List Subject) (gs : List Grade) :
    groupGrades subjects (gs.filter (fun g => (findSubject subjects g.subject_id).isSome)) =
      groupGrades subjects gs :=
  groupGrades_filter_live_foldl subjects gs [] (by simp)

/-! ### Characterization of the averaging loop -/

theorem summarize_foldl :
    ∀ (l : List (String × SubjectData)) (acc : List SubjectAverage × ℚ × ℚ),
    (∀ p ∈ l, p.2.grades ≠ []) →
    l.foldl summarizeStep acc =
      (acc.1 ++ l.map (fun p =>
         ⟨p.1, p.2.subject_name, round2 (mean p.2.grades), p.2.coefficient, p.2.grades.length⟩),
       acc.2.1 + (l.map (fun p => mean p.2.grades * p.2.coefficient)).sum,
       acc.2.2 + (l.map (fun p => p.2.coefficient)).sum) := by
  intro l
  induction l with
  | nil => intro acc _; simp
  | cons p l ih =>
    intro acc hne
    have hp : ¬ p.2.grades.isEmpty := by
      rw [List.isEmpty_iff]
      exact hne p (by simp)
    rw [List.foldl_cons, ih _ (fun q hq => hne q (by simp [hq]))]
    simp [summarizeStep, hp, add_assoc]

/-- The averaging loop over nonempty groups: one summary row per group, the
weighted sum of unrounded subject means, and the total coefficient. -/
theorem summarize_eq (l : List (String × SubjectData)) (h : ∀ p ∈ l, p.2.grades ≠ []) :
    summarize l =
      (l.map (fun p =>
         ⟨p.1, p.2.subject_name, round2 (mean p.2.grades), p.2.coefficient, p.2.grades.length⟩),
       (l.map (fun p => mean p.2.grades * p.2.coefficient)).sum,
       (l.map (fun p => p.2.coefficient)).sum) := by
  simpa [summarize] using summarize_foldl l ([], 0, 0) h

/-! ### Rounding and mean bounds -/

theorem roundHalfEven_nonneg {q : ℚ} (h : 0 ≤ q) : 0 ≤ roundHalfEven q := by
  have hf : 0 ≤ ⌊q⌋ := Int.floor_nonneg.2 h
  unfold roundHalfEven
  simp only []
  split_ifs <;> omega

theorem roundHalfEven_le {q : ℚ} {b : ℤ} (h : q ≤ (b : ℚ)) : roundHalfEven q ≤ b := by
  have hfb : ⌊q⌋ ≤ b := by
    have := Int.floor_le_floor h
    simpa using this
  have hfq : (⌊q⌋ : ℚ) ≤ q := Int.floor_le q
  unfold roundHalfEven
  simp only []
  split_ifs with h1 h2 h3
  · exact hfb
  · have hlt : (⌊q⌋ : ℚ) < (b : ℚ) := by
      push_neg at h1
      linarith
    have : ⌊q⌋ < b := by exact_mod_cast hlt
    omega
  · exact hfb
  · have hlt : (⌊q⌋ : ℚ) < (b : ℚ) := by
      push_neg at h1
      linarith
    have : ⌊q⌋ < b := by exact_mod_cast hlt
    omega

theorem round2_nonneg {q : ℚ} (h : 0 ≤ q) : 0 ≤ round2 q := by
  unfold round2
  have h1 : (0 : ℤ) ≤ roundHalfEven (q * 100) := roundHalfEven_nonneg (by positivity)
  have h2 : (0 : ℚ) ≤ (roundHalfEven (q * 100) : ℚ) := by exact_mod_cast h1
  positivity

theorem round2_le_twenty {q : ℚ} (h : q ≤ 20) : round2 q ≤ 20 := by
  unfold round2
  have h1 : roundHalfEven (q * 100) ≤ (2000 : ℤ) := roundHalfEven_le (by push_cast; linarith)
  have h2 : (roundHalfEven (q * 100) : ℚ) ≤ 2000 := by exact_mod_cast h1
  rw [div_le_iff₀ (by norm_num)]
  linarith

theorem mean_bounds {l : List ℚ} (hne : l ≠ [])
    (h : ∀ x ∈ l, 0 ≤ x ∧ x ≤ 20) : 0 ≤ mean l ∧ mean l ≤ 20 := by
  have hlen : 0 < (l.length : ℚ) := by
    have := List.length_pos.2 hne
    exact_mod_cast this
  have hs0 : 0 ≤ l.sum := List.sum_nonneg (fun x hx => (h x hx).1)
  have hs20 : l.sum ≤ (l.length : ℚ) * 20 := by
    have := List.sum_le_card_nsmul l 20 (fun x hx => (h x hx).2)
    simpa [nsmul_eq_mul] using this
  constructor
  · exact div_nonneg hs0 (le_of_lt hlen)
  · rw [mean, div_le_iff₀ hlen]
    linarith

/-! ### Unfolding equations for the average computation -/

theorem calculate_student_average_empty {dbGrades : List Grade} {subjects : List Subject}
    {sid : String} {sem : Option String} (h : studentGrades dbGrades sid = []) :
    calculate_student_average dbGrades subjects sid sem = ⟨sid, 0, [], 0, sem⟩ := by
  unfold calculate_student_average
  simp [h]

theorem calculate_student_average_nonempty {dbGrades : List Grade} {subjects : List Subject}
    {sid : String} {sem : Option String} (h : studentGrades dbGrades sid ≠ []) :
    calculate_student_average dbGrades subjects sid sem =
      ⟨sid,
       (if (summarize (groupGrades subjects (studentGrades dbGrades sid))).2.2 > 0 then
          round2 ((summarize (groupGrades subjects (studentGrades dbGrades sid))).2.1 /
            (summarize (groupGrades subjects (studentGrades dbGrades sid))).2.2)
        else 0),
       (summarize (groupGrades subjects (studentGrades dbGrades sid))).1,
       (summarize (groupGrades subjects (studentGrades dbGrades sid))).2.2,
       sem⟩ := by
  unfold calculate_student_average
  simp only [List.isEmpty_eq_true]
  rw [if_neg h]

theorem studentGrades_filter_comm (dbGrades : List Grade) (subjects : List Subject)
    (sid : String) :
    studentGrades (dbGrades.filter (fun g => (findSubject subjects g.subject_id).isSome)) sid =
      (studentGrades dbGrades sid).filter
        (fun g => (findSubject subjects g.subject_id).isSome) := by
  unfold studentGrades
  rw [List.filter_filter, List.filter_filter]
  congr 1
  funext g
  rw [Bool.and_comm]

/-- Dropping the grades of missing subjects does not change the report. -/
theorem calculate_student_average_filter_live (dbGrades : List Grade)
    (subjects : List Subject) (sid : String) (sem : Option String) :
    calculate_student_average
        (dbGrades.filter (fun g => (findSubject subjects g.subject_id).isSome))
        subjects sid sem =
      calculate_student_average dbGrades subjects sid sem := by
  have hcomm := studentGrades_filter_comm dbGrades subjects sid
  by_cases hgs : studentGrades dbGrades sid = []
  · rw [calculate_student_average_empty (by rw [hcomm, hgs]; rfl),
      calculate_student_average_empty hgs]
  · have hgroups := groupGrades_filter_live subjects (studentGrades dbGrades sid)
    by_cases hf : (studentGrades dbGrades sid).filter
        (fun g => (findSubject subjects g.subject_id).isSome) = []
    · rw [calculate_student_average_empty (by rw [hcomm, hf]),
        calculate_student_average_nonempty hgs]
      have hnil : groupGrades subjects (studentGrades dbGrades sid) = [] := by
        rw [← hgroups, hf]
        rfl
      rw [hnil]
      norm_num [summarize]
    · rw [calculate_student_average_nonempty hgs,
        calculate_student_average_nonempty (by rw [hcomm]; exact hf)]
      rw [hcomm, hgroups]

/-! ### Claim theorems -/

/-- C2: for every student identifier for which the grade store holds no
grades, `compute_average` returns a report with general average 0, an empty
per-subject list and total coefficient 0. -/
theorem emptyGradeStore_zero_report (dbGrades : List Grade) (subjects : List Subject)
    (sid : String) (sem : Option String) (h : studentGrades dbGrades sid = []) :
    calculate_student_average dbGrades subjects sid sem = ⟨sid, 0, [], 0, sem⟩ :=
  calculate_student_average_empty h

/-- C3: grades whose subject identifier is absent from the subject store are
excluded: dropping them changes nothing, every reported subject exists, and
the reported total coefficient is the sum of the coefficients of exactly the
subjects that contributed to the weighted sum. -/
theorem missingSubject_grades_excluded (dbGrades : List Grade) (subjects : List Subject)
    (sid : String) (sem : Option String) :
    calculate_student_average
        (dbGrades.filter (fun g => (findSubject subjects g.subject_id).isSome))
        subjects sid sem =
      calculate_student_average dbGrades subjects sid sem
    ∧ (∀ e ∈ (calculate_student_average dbGrades subjects sid sem).subject_averages,
        (findSubject subjects e.subject_id).isSome)
    ∧ (calculate_student_average dbGrades subjects sid sem).total_coefficient =
      ((calculate_student_average dbGrades subjects sid sem).subject_averages.map
        SubjectAverage.coefficient).sum := by
  refine ⟨calculate_student_average_filter_live dbGrades subjects sid sem, ?_, ?_⟩
  · by_cases h : studentGrades dbGrades sid = []
    · rw [calculate_student_average_empty h]
      intro e he
      exact absurd he (List.not_mem_nil e)
    · rw [calculate_student_average_nonempty h]
      have hinv := groupGrades_inv subjects (studentGrades dbGrades sid)
      rw [summarize_eq _ hinv.nonnil]
      intro e he
      obtain ⟨p, hp, hfp⟩ := List.mem_map.1 he
      obtain ⟨s, hs, -⟩ := hinv.resolves p hp
      subst hfp
      simp [hs]
  · by_cases h : studentGrades dbGrades sid = []
    · rw [calculate_student_average_empty h]
      simp
    · rw [calculate_student_average_nonempty h]
      have hinv := groupGrades_inv subjects (studentGrades dbGrades sid)
      rw [summarize_eq _ hinv.nonnil]
      simp [List.map_map]
      rfl

/-- C4: when no subject group resolves to an existing subject the total
coefficient is 0, the division is never taken, and the general average is
0. -/
theorem zeroCoefficient_division_guard (dbGrades : List Grade) (subjects : List Subject)
    (sid : String) (sem : Option String) :
    ((calculate_student_average dbGrades subjects sid sem).total_coefficient = 0 →
      (calculate_student_average dbGrades subjects sid sem).general_average = 0)
    ∧ ((∀ g ∈ studentGrades dbGrades sid, findSubject subjects g.subject_id = none) →
      (calculate_student_average dbGrades subjects sid sem).general_average = 0
      ∧ (calculate_student_average dbGrades subjects sid sem).subject_averages = []
      ∧ (calculate_student_average dbGrades subjects sid sem).total_coefficient = 0) := by
  constructor
  · intro htc
    by_cases h : studentGrades dbGrades sid = []
    · rw [calculate_student_average_empty h]
    · rw [calculate_student_average_nonempty h] at htc ⊢
      simp only at htc ⊢
      rw [htc]
      norm_num
  · intro hall
    by_cases h : studentGrades dbGrades sid = []
    · rw [calculate_student_average_empty h]
      exact ⟨rfl, rfl, rfl⟩
    · have hf : (studentGrades dbGrades sid).filter
          (fun g => (findSubject subjects g.subject_id).isSome) = [] := by
        rw [List.filter_eq_nil_iff]
        intro g hg
        simp [hall g hg]
      have hnil : groupGrades subjects (studentGrades dbGrades sid) = [] := by
        rw [← groupGrades_filter_live subjects (studentGrades dbGrades sid), hf]
        rfl
      rw [calculate_student_average_nonempty h, hnil]
      norm_num [summarize]

/-- C5: the semester argument is a pass-through label: it never affects the
general average, the per-subject averages or the total coefficient, only the
echoed semester field. -/
theorem semester_argument_inert (dbGrades : List Grade) (subjects : List Subject)
    (sid : String) (sem1 sem2 : Option String) :
    (calculate_student_average dbGrades subjects sid sem1).general_average =
      (calculate_student_average dbGrades subjects sid sem2).general_average
    ∧ (calculate_student_average dbGrades subjects sid sem1).subject_averages =
      (calculate_student_average dbGrades subjects sid sem2).subject_averages
    ∧ (calculate_student_average dbGrades subjects sid sem1).total_coefficient =
      (calculate_student_average dbGrades subjects sid sem2).total_coefficient
    ∧ (calculate_student_average dbGrades subjects sid sem1).semester = sem1
    ∧ (calculate_student_average dbGrades subjects sid sem2).semester = sem2 := by
  by_cases h : studentGrades dbGrades sid = []
  · rw [calculate_student_average_empty h, calculate_student_average_empty h]
    exact ⟨rfl, rfl, rfl, rfl, rfl⟩
  · rw [calculate_student_average_nonempty h, calculate_student_average_nonempty h]
    exact ⟨rfl, rfl, rfl, rfl, rfl⟩

/-- C6: the per-subject list is ordered by the position of the first grade of
each subject in the fetched grade sequence, and the computation is a function
of the grade store alone. -/
theorem subjectList_first_seen_order (dbGrades : List Grade) (subjects : List Subject)
    (sid : String) (sem : Option String) :
    ((calculate_student_average dbGrades subjects sid sem).subject_averages.map
        SubjectAverage.subject_id) =
      firstSeenSubjects subjects (studentGrades dbGrades sid)
    ∧ (∀ dbGrades2 : List Grade, dbGrades2 = dbGrades →
        calculate_student_average dbGrades2 subjects sid sem =
          calculate_student_average dbGrades subjects sid sem) := by
  constructor
  · by_cases h : studentGrades dbGrades sid = []
    · rw [calculate_student_average_empty h, h]
      rfl
    · rw [calculate_student_average_nonempty h]
      have hinv := groupGrades_inv subjects (studentGrades dbGrades sid)
      rw [summarize_eq _ hinv.nonnil]
      have hkeys := groupGrades_keys subjects (studentGrades dbGrades sid)
      simp only [List.map_map]
      exact hkeys
  · intro dbGrades2 hdb
    rw [hdb]

section RatEval

set_option allowUnsafeReducibility true
attribute [local semireducible] Rat.mul Rat.inv Rat.add Rat.sub

/-- C1: for a student with at least one grade of an existing subject, every
per-subject average is the rounded arithmetic mean of that subject's grade
values, and the general average is the weighted sum of the subject means over
the sum of the contributing coefficients, rounded to 2 decimals; in
particular, for grades subject A (coefficient 2) 10 and 14 and subject B
(coefficient 1) 16, the averages are 12, 16 and 13.33. -/
theorem perSubject_and_weighted_general_average :
    (∀ (dbGrades : List Grade) (subjects : List Subject) (sid : String) (sem : Option String),
      (∀ s ∈ subjects, 0 < s.coefficient) →
      (∃ g ∈ studentGrades dbGrades sid, (findSubject subjects g.subject_id).isSome) →
      (∀ e ∈ (calculate_student_average dbGrades subjects sid sem).subject_averages,
        e.average = round2 (mean (((studentGrades dbGrades sid).filter
          (fun g => g.subject_id == e.subject_id)).map Grade.value)))
      ∧ 0 < (calculate_student_average dbGrades subjects sid sem).total_coefficient
      ∧ (calculate_student_average dbGrades subjects sid sem).total_coefficient =
          (((calculate_student_average dbGrades subjects sid sem).subject_averages).map
            SubjectAverage.coefficient).sum
      ∧ (calculate_student_average dbGrades subjects sid sem).general_average =
          round2 ((((calculate_student_average dbGrades subjects sid sem).subject_averages).map
            (fun e => mean (((studentGrades dbGrades sid).filter
              (fun g => g.subject_id == e.subject_id)).map Grade.value) * e.coefficient)).sum /
            (calculate_student_average dbGrades subjects sid sem).total_coefficient))
    ∧ calculate_student_average exGrades exSubjects "stu1" none =
        ⟨"stu1", 1333/100,
         [⟨"subjA", "Subject A", 12, 2, 2⟩, ⟨"subjB", "Subject B", 16, 1, 1⟩], 3, none⟩ := by
  constructor
  · intro dbGrades subjects sid sem hpos hex
    have h : studentGrades dbGrades sid ≠ [] := by
      obtain ⟨g, hg, -⟩ := hex
      intro hnil
      rw [hnil] at hg
      exact absurd hg (List.not_mem_nil g)
    have hinv := groupGrades_inv subjects (studentGrades dbGrades sid)
    rw [calculate_student_average_nonempty h, summarize_eq _ hinv.nonnil]
    simp only
    have hgne : groupGrades subjects (studentGrades dbGrades sid) ≠ [] := by
      obtain ⟨g, hg', hsome⟩ := hex
      obtain ⟨d, hd⟩ := hinv.complete g hg' hsome
      intro hnil
      rw [hnil] at hd
      exact absurd hd (List.not_mem_nil _)
    have hcoefpos : ∀ p ∈ groupGrades subjects (studentGrades dbGrades sid),
        0 < p.2.coefficient := by
      intro p hp
      obtain ⟨s, hs, -, hc⟩ := hinv.resolves p hp
      rw [hc]
      exact hpos s (List.mem_of_find?_eq_some hs)
    have htc : 0 < ((groupGrades subjects (studentGrades dbGrades sid)).map
        (fun p => p.2.coefficient)).sum := by
      apply List.sum_pos
      · intro x hx
        obtain ⟨p, hp, hfp⟩ := List.mem_map.1 hx
        subst hfp
        exact hcoefpos p hp
      · intro hnil
        rw [List.map_eq_nil_iff] at hnil
        exact hgne hnil
    refine ⟨?_, htc, ?_, ?_⟩
    · intro e he
      obtain ⟨p, hp, hfp⟩ := List.mem_map.1 he
      subst hfp
      simp only
      rw [← hinv.grades_eq p hp]
    · rw [List.map_map]
      rfl
    · rw [if_pos htc, List.map_map]
      congr 2
      refine congrArg List.sum ?_
      apply List.map_congr_left
      intro p hp
      simp only [Function.comp_apply]
      rw [hinv.grades_eq p hp]
  · decide

/-- C10: when every stored grade value lies in [0, 20] and every subject
coefficient is positive, the general average and every per-subject average
stay within the 0-20 grading scale. -/
theorem report_within_grading_scale (dbGrades : List Grade) (subjects : List Subject)
    (sid : String) (sem : Option String)
    (hv : ∀ g ∈ dbGrades, 0 ≤ g.value ∧ g.value ≤ 20)
    (hc : ∀ s ∈ subjects, 0 < s.coefficient) :
    (0 ≤ (calculate_student_average dbGrades subjects sid sem).general_average
      ∧ (calculate_student_average dbGrades subjects sid sem).general_average ≤ 20)
    ∧ (∀ e ∈ (calculate_student_average dbGrades subjects sid sem).subject_averages,
        0 ≤ e.average ∧ e.average ≤ 20) := by
  by_cases h : studentGrades dbGrades sid = []
  · rw [calculate_student_average_empty h]
    refine ⟨⟨le_refl 0, by norm_num⟩, ?_⟩
    intro e he
    exact absurd he (List.not_mem_nil e)
  · have hinv := groupGrades_inv subjects (studentGrades dbGrades sid)
    rw [calculate_student_average_nonempty h, summarize_eq _ hinv.nonnil]
    simp only
    have hmb : ∀ p ∈ groupGrades subjects (studentGrades dbGrades sid),
        0 ≤ mean p.2.grades ∧ mean p.2.grades ≤ 20 := by
      intro p hp
      apply mean_bounds (hinv.nonnil p hp)
      intro x hx
      rw [hinv.grades_eq p hp] at hx
      obtain ⟨g, hg, hgv⟩ := List.mem_map.1 hx
      have hgdb : g ∈ dbGrades := List.mem_of_mem_filter (List.mem_of_mem_filter hg)
      rw [← hgv]
      exact hv g hgdb
    have hcoefpos : ∀ p ∈ groupGrades subjects (studentGrades dbGrades sid),
        0 < p.2.coefficient := by
      intro p hp
      obtain ⟨s, hs, -, hcp⟩ := hinv.resolves p hp
      rw [hcp]
      exact hc s (List.mem_of_find?_eq_some hs)
    constructor
    · by_cases htc : ((groupGrades subjects (studentGrades dbGrades sid)).map
          (fun p => p.2.coefficient)).sum > 0
      · rw [if_pos htc]
        have hws0 : 0 ≤ ((groupGrades subjects (studentGrades dbGrades sid)).map
            (fun p => mean p.2.grades * p.2.coefficient)).sum := by
          apply List.sum_nonneg
          intro x hx
          obtain ⟨p, hp, hfp⟩ := List.mem_map.1 hx
          subst hfp
          exact mul_nonneg (hmb p hp).1 (le_of_lt (hcoefpos p hp))
        have hws20 : ((groupGrades subjects (studentGrades dbGrades sid)).map
            (fun p => mean p.2.grades * p.2.coefficient)).sum ≤
            20 * ((groupGrades subjects (studentGrades dbGrades sid)).map
              (fun p => p.2.coefficient)).sum := by
          rw [← List.sum_map_mul_left]
          apply List.sum_le_sum
          intro p hp
          exact mul_le_mul_of_nonneg_right (hmb p hp).2 (le_of_lt (hcoefpos p hp))
        constructor
        · exact round2_nonneg (div_nonneg hws0 (le_of_lt htc))
        · apply round2_le_twenty
          rw [div_le_iff₀ htc]
          linarith
      · rw [if_neg htc]
        norm_num
    · intro e he
      obtain ⟨p, hp, hfp⟩ := List.mem_map.1 he
      subst hfp
      simp only
      exact ⟨round2_nonneg (hmb p hp).1, round2_le_twenty (hmb p hp).2⟩

/-- C7: grade creation or update requests with a value outside [0, 20] are
rejected with a validation failure and nothing is stored, and a successful
creation or update keeps every stored grade value in [0, 20] (no clamping:
the stored value is the requested one). -/
theorem grade_value_range_validation (dbUsers : List User) (subjects : List Subject)
    (dbGrades : List Grade) (req : GradeCreate) (new_id : String)
    (gid : String) (upd : GradeUpdate) :
    (¬ (0 ≤ req.value ∧ req.value ≤ 20) →
      create_grade dbUsers subjects dbGrades req new_id = .error .validation)
    ∧ (∀ v, upd.value = some v → ¬ (0 ≤ v ∧ v ≤ 20) →
      update_grade dbGrades gid upd = .error .validation)
    ∧ (∀ gs, create_grade dbUsers subjects dbGrades req new_id = .ok gs →
        gs = dbGrades ++ [⟨new_id, req.student_id, req.subject_id, req.value, req.comment⟩]
        ∧ ((∀ g ∈ dbGrades, 0 ≤ g.value ∧ g.value ≤ 20) →
           ∀ g ∈ gs, 0 ≤ g.value ∧ g.value ≤ 20))
    ∧ (∀ gs, update_grade dbGrades gid upd = .ok gs →
        (∀ g ∈ dbGrades, 0 ≤ g.value ∧ g.value ≤ 20) →
        ∀ g ∈ gs, 0 ≤ g.value ∧ g.value ≤ 20) := by
  refine ⟨?_, ?_, ?_, ?_⟩
  · intro hbad
    have hbad' : ¬ gradeCreateValid req := fun hv => hbad hv
    unfold create_grade
    rw [if_pos hbad']
  · intro v hvv hbad
    have hbad' : ¬ gradeUpdateValid upd := fun hvalid => hbad (hvalid v hvv)
    unfold update_grade
    rw [if_pos hbad']
  · intro gs hok
    unfold create_grade at hok
    split_ifs at hok with h1 h2 h3
    have hgs : dbGrades ++ [Grade.mk new_id req.student_id req.subject_id req.value req.comment]
        = gs := by
      simpa using hok
    subst hgs
    refine ⟨rfl, ?_⟩
    intro hrange g hg
    rcases List.mem_append.1 hg with hmem | hmem
    · exact hrange g hmem
    · have hgeq : g = Grade.mk new_id req.student_id req.subject_id req.value req.comment := by
        simpa using hmem
      subst hgeq
      exact h1
  · intro gs hok hrange g hg
    unfold update_grade at hok
    split_ifs at hok with h1 h2
    have hvalid : gradeUpdateValid upd := h1
    have hgs : dbGrades.map (fun g => if g.id == gid then
        Grade.mk g.id g.student_id g.subject_id (upd.value.getD g.value)
          (match upd.comment with | some c => some c | none => g.comment)
      else g) = gs := by
      simpa using hok
    subst hgs
    obtain ⟨g0, hg0, hfg⟩ := List.mem_map.1 hg
    by_cases hid : (g0.id == gid) = true
    · rw [if_pos hid] at hfg
      subst hfg
      cases hvv : upd.value with
      | none => simpa [hvv] using hrange g0 hg0
      | some v =>
        have := hvalid v hvv
        simpa [hvv] using this
    · rw [if_neg hid] at hfg
      subst hfg
      exact hrange g0 hg0

/-- C8: a caller with role STUDENT asking for another student's average or
grades gets a forbidden outcome (never a not-found one), and the average
computation is reached only when the caller is the subject student or holds
the TEACHER or ADMIN role. -/
theorem crossStudent_access_forbidden (dbGrades : List Grade) (subjects : List Subject)
    (dbUsers : List User) (caller : User) (sid : String) (sem : Option String) :
    (caller.role = Role.STUDENT → caller.id ≠ sid →
      calculate_student_average_endpoint dbGrades subjects caller sid sem = .error .forbidden
      ∧ get_student_grades_endpoint dbGrades dbUsers caller sid = .error .forbidden)
    ∧ (∀ r, calculate_student_average_endpoint dbGrades subjects caller sid sem = .ok r →
      caller.id = sid ∨ caller.role = Role.TEACHER ∨ caller.role = Role.ADMIN) := by
  constructor
  · intro hrole hid
    have hden : deniedStudentAccess caller sid := by
      refine ⟨hrole, hid, ?_, ?_⟩ <;> rw [hrole] <;> intro hcon <;> exact Role.noConfusion hcon
    constructor
    · unfold calculate_student_average_endpoint
      rw [if_pos hden]
    · unfold get_student_grades_endpoint
      rw [if_pos hden]
  · intro r hok
    unfold calculate_student_average_endpoint at hok
    by_cases hden : deniedStudentAccess caller sid
    · rw [if_pos hden] at hok
      exact Except.noConfusion hok
    · cases hr : caller.role with
      | ADMIN => exact Or.inr (Or.inr rfl)
      | TEACHER => exact Or.inr (Or.inl rfl)
      | STUDENT =>
        refine Or.inl ?_
        by_contra hid
        exact hden ⟨hr, hid, by rw [hr]; intro hcon; exact Role.noConfusion hcon,
          by rw [hr]; intro hcon; exact Role.noConfusion hcon⟩

theorem deleteOneUser_length_eq {dbUsers : List User} {uid : String} :
    (deleteOneUser dbUsers uid).length = dbUsers.length ↔ ∀ u ∈ dbUsers, u.id ≠ uid := by
  induction dbUsers with
  | nil => simp [deleteOneUser]
  | cons u rest ih =>
    simp only [deleteOneUser]
    by_cases hu : (u.id == uid) = true
    · rw [if_pos hu]
      have hu' : u.id = uid := by simpa using hu
      constructor
      · intro hlen'
        simp at hlen'
      · intro hall
        exact absurd hu' (hall u (by simp))
    · rw [if_neg hu]
      have hu' : u.id ≠ uid := by simpa using hu
      simp only [List.length_cons, Nat.succ_inj, List.mem_cons]
      rw [ih]
      constructor
      · intro hall v hv
        rcases hv with hv | hv
        · rw [hv]; exact hu'
        · exact hall v hv
      · intro hall v hv
        exact hall v (Or.inr hv)

/-- C9: deleting an existing user removes exactly the grades referencing that
user and keeps every other grade; deleting a non-existent user identifier
fails with not-found (so the grade store is untouched). -/
theorem delete_user_cascades (dbUsers : List User) (dbGrades : List Grade) (uid : String) :
    ((∀ u ∈ dbUsers, u.id ≠ uid) →
      delete_user dbUsers dbGrades uid = .error .notFound)
    ∧ (∀ users2 grades2, delete_user dbUsers dbGrades uid = .ok (users2, grades2) →
        (∃ u ∈ dbUsers, u.id = uid)
        ∧ grades2 = dbGrades.filter (fun g => ¬ (g.student_id == uid))
        ∧ (∀ g ∈ grades2, g.student_id ≠ uid)
        ∧ (∀ g ∈ dbGrades, g.student_id ≠ uid → g ∈ grades2)) := by
  have hdu : delete_user dbUsers dbGrades uid =
      (if (deleteOneUser dbUsers uid).length = dbUsers.length then
        Except.error ApiError.notFound
      else
        Except.ok (deleteOneUser dbUsers uid,
          dbGrades.filter (fun g => ¬ (g.student_id == uid)))) := rfl
  constructor
  · intro hno
    rw [hdu, if_pos (deleteOneUser_length_eq.2 hno)]
  · intro users2 grades2 hok
    rw [hdu] at hok
    split_ifs at hok with h1
    have hex : ∃ u ∈ dbUsers, u.id = uid := by
      by_contra hnone
      push_neg at hnone
      exact h1 (deleteOneUser_length_eq.2 hnone)
    have hpair : deleteOneUser dbUsers uid = users2 ∧
        dbGrades.filter (fun g => ¬ (g.student_id == uid)) = grades2 := by
      have := hok
      simp only [Except.ok.injEq, Prod.mk.injEq] at this
      exact this
    obtain ⟨-, hgr⟩ := hpair
    subst hgr
    refine ⟨hex, rfl, ?_, ?_⟩
    · intro g hg
      have := List.of_mem_filter hg
      simpa using this
    · intro g hg hne
      apply List.mem_filter.2
      exact ⟨hg, by simpa using hne⟩

end RatEval

/-! ### Concrete witnesses -/

theorem perSubject_and_weighted_general_average_witness :
    0 < (calculate_student_average exGrades exSubjects "stu1" none).total_coefficient :=
  (perSubject_and_weighted_general_average.1 exGrades exSubjects "stu1" none
    (by decide) (by decide)).2.1

theorem emptyGradeStore_zero_report_witness :
    calculate_student_average exGrades exSubjects "zzz" none = ⟨"zzz", 0, [], 0, none⟩ :=
  emptyGradeStore_zero_report exGrades exSubjects "zzz" none (by decide)

theorem missingSubject_grades_excluded_witness :
    calculate_student_average
        (exGradesGhost.filter (fun g => (findSubject exSubjects g.subject_id).isSome))
        exSubjects "stu3" none =
      calculate_student_average exGradesGhost exSubjects "stu3" none :=
  (missingSubject_grades_excluded exGradesGhost exSubjects "stu3" none).1

theorem zeroCoefficient_division_guard_witness :
    (calculate_student_average exGradesGhost exSubjects "stu3" none).general_average = 0
    ∧ (calculate_student_average exGradesGhost exSubjects "stu3" none).subject_averages = []
    ∧ (calculate_student_average exGradesGhost exSubjects "stu3" none).total_coefficient = 0 :=
  (zeroCoefficient_division_guard exGradesGhost exSubjects "stu3" none).2 (by decide)

theorem semester_argument_inert_witness :
    (calculate_student_average exGrades exSubjects "stu1" (some "S1")).general_average =
      (calculate_student_average exGrades exSubjects "stu1" (some "S2")).general_average :=
  (semester_argument_inert exGrades exSubjects "stu1" (some "S1") (some "S2")).1

theorem subjectList_first_seen_order_witness :
    ((calculate_student_average exGrades exSubjects "stu1" none).subject_averages.map
        SubjectAverage.subject_id) =
      firstSeenSubjects exSubjects (studentGrades exGrades "stu1")
    ∧ calculate_student_average exGrades exSubjects "stu1" none =
      calculate_student_average exGrades exSubjects "stu1" none :=
  ⟨(subjectList_first_seen_order exGrades exSubjects "stu1" none).1,
   (subjectList_first_seen_order exGrades exSubjects "stu1" none).2 exGrades rfl⟩

theorem grade_value_range_validation_witness :
    create_grade exUsers exSubjects exGrades exBadCreate "gX" = .error .validation
    ∧ update_grade exGrades "g1" exBadUpdate = .error .validation :=
  ⟨(grade_value_range_validation exUsers exSubjects exGrades exBadCreate "gX"
      "g1" exBadUpdate).1 (by decide),
   (grade_value_range_validation exUsers exSubjects exGrades exBadCreate "gX"
      "g1" exBadUpdate).2.1 25 rfl (by decide)⟩

theorem crossStudent_access_forbidden_witness :
    calculate_student_average_endpoint exGrades exSubjects exCaller "stu1" none =
      .error .forbidden
    ∧ get_student_grades_endpoint exGrades exUsers exCaller "stu1" = .error .forbidden :=
  (crossStudent_access_forbidden exGrades exSubjects exUsers exCaller "stu1" none).1
    rfl (by decide)

theorem delete_user_cascades_witness :
    (∃ u ∈ exUsers, u.id = "stu1")
    ∧ ([] : List Grade) = exGrades.filter (fun g => ¬ (g.student_id == "stu1"))
    ∧ (∀ g ∈ ([] : List Grade), g.student_id ≠ "stu1")
    ∧ (∀ g ∈ exGrades, g.student_id ≠ "stu1" → g ∈ ([] : List Grade)) :=
  (delete_user_cascades exUsers exGrades "stu1").2 [User.mk "t1" Role.TEACHER] [] rfl

theorem report_within_grading_scale_witness :
    0 ≤ (calculate_student_average exGrades exSubjects "stu1" none).general_average
    ∧ (calculate_student_average exGrades exSubjects "stu1" none).general_average ≤ 20 :=
  (report_within_grading_scale exGrades exSubjects "stu1" none (by decide) (by decide)).1

end GradeMgmt

